import Mathlib

/-!
Verification of the layer-flattening and coordinate-transform core of
`gimp_spine.py`, a GIMP plugin that exports a layered image to a Spine
JSON manifest plus one PNG per leaf layer.

The embedding models the layer tree read from the host (GIMP) as an
inductive `Layer`, the JSON manifest as a `Manifest` record, and the
functions `spine_export`, `process_layer` and `save_layers` of the source
as pure Lean functions with explicit state passing for the lists and
dicts the Python code mutates in place.  Host (pdb) calls are external
collaborators: the result of `plug_in_autocrop_layer` on a leaf is
modelled as the leaf's recorded post-autocrop geometry, and PNG
rasterization is modelled by the file names `save_layers` writes.
-/

/-- Pixel geometry of a leaf layer as read from the host: offset
(`layer.offsets`, ints, relative to the canvas top-left) and size
(`layer.width`, `layer.height`, non-negative). -/
structure Geom where
  ox : Int
  oy : Int
  w : Nat
  h : Nat
deriving Repr, DecidableEq

/-- A node of the GIMP layer tree.  A group has sublayers (the Python code
detects this with `hasattr(layer, 'layers')`, line 93); a leaf has pixel
geometry.  `cropped` models the external collaborator
`pdb.plug_in_autocrop_layer`: it is the geometry this leaf would have
after autocrop (line 99).  Autocropping an already autocropped leaf
changes nothing, so a cropped leaf carries `cropped` in both fields. -/
inductive Layer where
  | group (name : String) (visible : Bool) (children : List Layer)
  | leaf (name : String) (visible : Bool) (geom : Geom) (cropped : Geom)

/-- The `name` attribute of a layer (line 101). -/
def Layer.name : Layer → String
  | .group n _ _ => n
  | .leaf n _ _ _ => n

/-- The `visible` attribute of a layer (line 72). -/
def Layer.visible : Layer → Bool
  | .group _ v _ => v
  | .leaf _ v _ _ => v

/-- One entry of the manifest's `slots` list (lines 104-114):
`{'name': layer_name, 'bone': 'root', 'attachment': layer_name}`. -/
structure SlotRecord where
  name : String
  bone : String
  attachment : String
deriving Repr, DecidableEq

/-- The value stored under `skins.default[layer_name][layer_name]`
(lines 129-135). -/
structure AttachmentRecord where
  x : Int
  y : Int
  rotation : Int
  width : Nat
  height : Nat
deriving Repr, DecidableEq

/-- The `skins.default` dict: insertion-ordered association list from
layer name to the inner one-key dict `{layer_name: AttachmentRecord}`,
modelled as (outer key, inner key, record). -/
abbrev Attachments := List (String × String × AttachmentRecord)

/-- Python dict assignment `m[k] = v`: overwrite in place when the key is
present, append otherwise (insertion order preserved). -/
def dict_set (m : Attachments) (k : String) (v : String × AttachmentRecord) : Attachments :=
  match m with
  | [] => [(k, v)]
  | (k', v') :: rest => if k' = k then (k', v) :: rest else (k', v') :: dict_set rest k v

/-- One entry of the manifest's `bones` list; the code only ever emits
`{'name': 'root'}` (line 61). -/
structure BoneRecord where
  name : String
deriving Repr, DecidableEq

/-- The JSON output object set up in lines 60-65 of `spine_export`.
`skins` is an insertion-ordered dict from skin name to attachment dict;
`animations` is a dict that is never written, so only its (always empty)
key list is modelled. -/
structure Manifest where
  bones : List BoneRecord
  slots : List SlotRecord
  skins : List (String × Attachments)
  animations : List String
deriving Repr, DecidableEq

/-- The image: canvas size plus the top-level layer stack.  `spine_export`
works on a duplicate of the user's image (line 57). -/
structure Image where
  width : Nat
  height : Nat
  layers : List Layer

/-- The coordinate transform of lines 115-127: read `x, y = layer.offsets`,
add `math.floor(width / 2)` and `math.floor(height / 2)` (exact floor of a
non-negative integer halving), recenter x by `math.floor(img.width / 2)`,
and flip y to `img.height - y`. -/
def transform (g : Geom) (img : Image) : Int × Int :=
  let x := g.ox + ((g.w / 2 : Nat) : Int)
  let y := g.oy + ((g.h / 2 : Nat) : Int)
  let x := x - ((img.width / 2 : Nat) : Int)
  let y := (img.height : Int) - y
  (x, y)

/-- Result of `process_layer` on one layer: the (possibly autocropped)
layer as left in the duplicated image, the updated `slots` list, the
updated `skins.default` dict, and the returned flat list of processed
leaves. -/
structure ProcResult where
  layer : Layer
  slots : List SlotRecord
  attachments : Attachments
  processed : List Layer

/-- Result of the `for sublayer in layer.layers` loop of lines 94-95. -/
structure ProcListResult where
  layers : List Layer
  slots : List SlotRecord
  attachments : Attachments
  processed : List Layer

mutual
/-- Embeds `process_layer` (lines 86-138).  A group recurses into its
sublayers with no visibility check; a leaf is (optionally) autocropped in
place, then one SlotRecord is appended (reverse order) or prepended
(normal order) to `slots`, and its attachment is written into the
`skins.default` dict under its name. -/
def process_layer (img : Image) (reverse_draw_order autocrop_layers : Bool) :
    Layer → List SlotRecord → Attachments → ProcResult
  | Layer.group name vis children, slots, attachments =>
    let r := process_sublayers img reverse_draw_order autocrop_layers children slots attachments
    ⟨Layer.group name vis r.layers, r.slots, r.attachments, r.processed⟩
  | Layer.leaf name vis geom cropped, slots, attachments =>
    let g := if autocrop_layers then cropped else geom
    let layer' := Layer.leaf name vis g cropped
    let slots' := if reverse_draw_order
      then slots ++ [⟨name, "root", name⟩]
      else (⟨name, "root", name⟩ : SlotRecord) :: slots
    let p := transform g img
    let att : AttachmentRecord := ⟨p.1, p.2, 0, g.w, g.h⟩
    ⟨layer', slots', dict_set attachments name (name, att), [layer']⟩

/-- The `for sublayer in layer.layers` loop of lines 94-95: process each
sublayer in order, threading the shared `slots`/`attachments` state, and
concatenate the processed-leaf lists with `processed.extend(...)`. -/
def process_sublayers (img : Image) (reverse_draw_order autocrop_layers : Bool) :
    List Layer → List SlotRecord → Attachments → ProcListResult
  | [], slots, attachments => ⟨[], slots, attachments, []⟩
  | l :: ls, slots, attachments =>
    let r := process_layer img reverse_draw_order autocrop_layers l slots attachments
    let rs := process_sublayers img reverse_draw_order autocrop_layers ls r.slots r.attachments
    ⟨r.layer :: rs.layers, rs.slots, rs.attachments, r.processed ++ rs.processed⟩
end

/-- Embeds `save_layers` (lines 140-165): each processed leaf is written
as `'%s.png' % layer.name`; the rasterization itself is the external
collaborator, so only the written file names are modelled, in order. -/
def save_layers (to_save : List Layer) : List String :=
  to_save.map (fun l => l.name ++ ".png")

/-- Result of the top-level `for layer in img.layers` loop of lines
71-74: final `slots`, final `skins.default`, and all file names written
by the per-iteration `save_layers` calls, in order. -/
structure LoopResult where
  slots : List SlotRecord
  attachments : Attachments
  files : List String

/-- The top-level loop of lines 71-74: a top-level layer is processed
only when `layer.visible or not(export_visible_only)` holds. -/
def export_loop (img : Image) (export_visible_only reverse_draw_order autocrop_layers : Bool) :
    List Layer → List SlotRecord → Attachments → List String → LoopResult
  | [], slots, attachments, files => ⟨slots, attachments, files⟩
  | layer :: rest, slots, attachments, files =>
    if layer.visible || !export_visible_only then
      let r := process_layer img reverse_draw_order autocrop_layers layer slots attachments
      export_loop img export_visible_only reverse_draw_order autocrop_layers rest
        r.slots r.attachments (files ++ save_layers r.processed)
    else
      export_loop img export_visible_only reverse_draw_order autocrop_layers rest
        slots attachments files

/-- Result of `spine_export`: the JSON object written to disk and the PNG
file names written by `save_layers`. -/
structure ExportResult where
  output : Manifest
  files : List String

/-- Embeds `spine_export` (lines 51-84): set up the initial JSON object
(bones `[{'name': 'root'}]`, empty slots, `skins = {'default': {}}`,
empty animations), run the top-level loop which mutates `output['slots']`
and `output['skins']['default']` through the aliases of lines 66-67, and
return the finished object.  Path/compression/json-filename handling and
the image duplicate bookkeeping are host glue and not modelled. -/
def spine_export (img : Image) (export_visible_only reverse_draw_order autocrop_layers : Bool) :
    ExportResult :=
  let output : Manifest := ⟨[⟨"root"⟩], [], [("default", [])], []⟩
  let r := export_loop img export_visible_only reverse_draw_order autocrop_layers
    img.layers output.slots ((List.lookup "default" output.skins).getD []) []
  ⟨{ output with slots := r.slots, skins := [("default", r.attachments)] }, r.files⟩

/-- The attachment dict under the `default` skin of a manifest. -/
def skin_default (m : Manifest) : Attachments :=
  (List.lookup "default" m.skins).getD []

/-- The slot record `process_layer` builds for a leaf named `n`
(lines 104-114). -/
def mk_slot (n : String) : SlotRecord :=
  ⟨n, "root", n⟩

/-- The attachment record `process_layer` builds for a leaf with geometry
`g` on canvas `img` (lines 115-135). -/
def mk_att (g : Geom) (img : Image) : AttachmentRecord :=
  ⟨(transform g img).1, (transform g img).2, 0, g.w, g.h⟩

mutual
/-- Number of leaves of a layer subtree. -/
def Layer.leaf_count : Layer → Nat
  | .leaf _ _ _ _ => 1
  | .group _ _ cs => leaf_count_list cs

/-- Number of leaves of a forest. -/
def leaf_count_list : List Layer → Nat
  | [] => 0
  | l :: ls => l.leaf_count + leaf_count_list ls
end

mutual
/-- Names of the leaves of a subtree, in traversal order. -/
def Layer.leaf_names : Layer → List String
  | .leaf n _ _ _ => [n]
  | .group _ _ cs => leaf_names_list cs

/-- Names of the leaves of a forest, in traversal order. -/
def leaf_names_list : List Layer → List String
  | [] => []
  | l :: ls => l.leaf_names ++ leaf_names_list ls
end

mutual
/-- The `skins.default` entries `process_layer` writes for the leaves of a
subtree, in traversal order, using the geometry it reads (the autocropped
one when `autocrop_layers` is set). -/
def Layer.leaf_atts (img : Image) (ac : Bool) : Layer → Attachments
  | .leaf n _ g c => [(n, n, mk_att (if ac then c else g) img)]
  | .group _ _ cs => leaf_atts_list img ac cs

/-- `Layer.leaf_atts` over a forest. -/
def leaf_atts_list (img : Image) (ac : Bool) : List Layer → Attachments
  | [] => []
  | l :: ls => l.leaf_atts img ac ++ leaf_atts_list img ac ls
end

mutual
/-- The effect of the autocrop side effect on a whole subtree: every
leaf's geometry is replaced by its post-autocrop geometry. -/
def Layer.autocrop_all : Layer → Layer
  | .leaf n v _ c => .leaf n v c c
  | .group n v cs => .group n v (autocrop_all_list cs)

/-- `Layer.autocrop_all` over a forest. -/
def autocrop_all_list : List Layer → List Layer
  | [] => []
  | l :: ls => l.autocrop_all :: autocrop_all_list ls
end

/-- Names of the leaves the export actually processes, in traversal
order: all leaves under the top-level layers that pass the line-72 filter
`layer.visible or not(export_visible_only)`. -/
def export_leaf_names (export_visible_only : Bool) : List Layer → List String
  | [] => []
  | l :: ls =>
    (if l.visible || !export_visible_only then l.leaf_names else [])
      ++ export_leaf_names export_visible_only ls

/-- The `skins.default` entries the export writes, in traversal order. -/
def export_atts (img : Image) (export_visible_only autocrop_layers : Bool) :
    List Layer → Attachments
  | [] => []
  | l :: ls =>
    (if l.visible || !export_visible_only then l.leaf_atts img autocrop_layers else [])
      ++ export_atts img export_visible_only autocrop_layers ls

mutual
/-- Modelled from the spec: the number of leaves the spec's flattener
would export with `visibleOnly = true`, checking the visibility flag at
every level of the recursion independently, so an invisible node hides
its whole subtree. -/
def spec_visible_leaves : Layer → Nat
  | .leaf _ v _ _ => if v then 1 else 0
  | .group _ v cs => if v then spec_visible_leaves_list cs else 0

/-- `spec_visible_leaves` over a forest. -/
def spec_visible_leaves_list : List Layer → Nat
  | [] => 0
  | l :: ls => spec_visible_leaves l + spec_visible_leaves_list ls
end

/-! ### Structural lemmas about `process_layer` -/

mutual
/-- With `reverse_draw_order` set, processing a subtree appends its leaf
slots, in traversal order, to the end of `slots`. -/
theorem process_layer_slots_true (img : Image) (ac : Bool) (l : Layer)
    (slots : List SlotRecord) (atts : Attachments) :
    (process_layer img true ac l slots atts).slots
      = slots ++ l.leaf_names.map mk_slot := by
  cases l with
  | leaf n v g c => simp [process_layer, Layer.leaf_names, mk_slot]
  | group n v cs =>
    simp [process_layer, Layer.leaf_names,
      process_sublayers_slots_true img ac cs slots atts]

/-- `process_layer_slots_true` for a forest. -/
theorem process_sublayers_slots_true (img : Image) (ac : Bool) (ls : List Layer)
    (slots : List SlotRecord) (atts : Attachments) :
    (process_sublayers img true ac ls slots atts).slots
      = slots ++ (leaf_names_list ls).map mk_slot := by
  cases ls with
  | nil => simp [process_sublayers, leaf_names_list]
  | cons l ls =>
    simp [process_sublayers, leaf_names_list,
      process_layer_slots_true img ac l,
      process_sublayers_slots_true img ac ls]
end

mutual
/-- With `reverse_draw_order` unset, processing a subtree prepends its
leaf slots, reversing traversal order, to the front of `slots`. -/
theorem process_layer_slots_false (img : Image) (ac : Bool) (l : Layer)
    (slots : List SlotRecord) (atts : Attachments) :
    (process_layer img false ac l slots atts).slots
      = (l.leaf_names.map mk_slot).reverse ++ slots := by
  cases l with
  | leaf n v g c => simp [process_layer, Layer.leaf_names, mk_slot]
  | group n v cs =>
    simp [process_layer, Layer.leaf_names,
      process_sublayers_slots_false img ac cs slots atts]

/-- `process_layer_slots_false` for a forest. -/
theorem process_sublayers_slots_false (img : Image) (ac : Bool) (ls : List Layer)
    (slots : List SlotRecord) (atts : Attachments) :
    (process_sublayers img false ac ls slots atts).slots
      = ((leaf_names_list ls).map mk_slot).reverse ++ slots := by
  cases ls with
  | nil => simp [process_sublayers, leaf_names_list]
  | cons l ls =>
    simp [process_sublayers, leaf_names_list,
      process_layer_slots_false img ac l,
      process_sublayers_slots_false img ac ls]
end

mutual
/-- Processing a subtree folds its attachment entries, in traversal
order, into the `skins.default` dict with Python dict assignment. -/
theorem process_layer_atts (img : Image) (rdo ac : Bool) (l : Layer)
    (slots : List SlotRecord) (atts : Attachments) :
    (process_layer img rdo ac l slots atts).attachments
      = (l.leaf_atts img ac).foldl (fun m e => dict_set m e.1 e.2) atts := by
  cases l with
  | leaf n v g c => simp [process_layer, Layer.leaf_atts, mk_att]
  | group n v cs =>
    simp [process_layer, Layer.leaf_atts,
      process_sublayers_atts img rdo ac cs slots atts]

/-- `process_layer_atts` for a forest. -/
theorem process_sublayers_atts (img : Image) (rdo ac : Bool) (ls : List Layer)
    (slots : List SlotRecord) (atts : Attachments) :
    (process_sublayers img rdo ac ls slots atts).attachments
      = (leaf_atts_list img ac ls).foldl (fun m e => dict_set m e.1 e.2) atts := by
  cases ls with
  | nil => simp [process_sublayers, leaf_atts_list]
  | cons l ls =>
    simp [process_sublayers, leaf_atts_list, List.foldl_append,
      process_layer_atts img rdo ac l,
      process_sublayers_atts img rdo ac ls]
end

mutual
/-- The flat list `process_layer` returns holds exactly the subtree's
leaves, in traversal order (witnessed by their names). -/
theorem process_layer_processed_names (img : Image) (rdo ac : Bool) (l : Layer)
    (slots : List SlotRecord) (atts : Attachments) :
    (process_layer img rdo ac l slots atts).processed.map Layer.name
      = l.leaf_names := by
  cases l with
  | leaf n v g c => simp [process_layer, Layer.leaf_names, Layer.name]
  | group n v cs =>
    simp [process_layer, Layer.leaf_names,
      process_sublayers_processed_names img rdo ac cs slots atts]

/-- `process_layer_processed_names` for a forest. -/
theorem process_sublayers_processed_names (img : Image) (rdo ac : Bool) (ls : List Layer)
    (slots : List SlotRecord) (atts : Attachments) :
    (process_sublayers img rdo ac ls slots atts).processed.map Layer.name
      = leaf_names_list ls := by
  cases ls with
  | nil => simp [process_sublayers, leaf_names_list]
  | cons l ls =>
    simp [process_sublayers, leaf_names_list,
      process_layer_processed_names img rdo ac l,
      process_sublayers_processed_names img rdo ac ls]
end

mutual
/-- The only change `process_layer` makes to the layer tree itself is the
autocrop side effect: with `autocrop_layers` set every leaf's geometry is
replaced by its post-autocrop geometry, and without it the tree is
returned unchanged. -/
theorem process_layer_layer (img : Image) (rdo ac : Bool) (l : Layer)
    (slots : List SlotRecord) (atts : Attachments) :
    (process_layer img rdo ac l slots atts).layer
      = if ac then l.autocrop_all else l := by
  cases l with
  | leaf n v g c => cases ac <;> simp [process_layer, Layer.autocrop_all]
  | group n v cs =>
    cases ac <;>
      simp [process_layer, Layer.autocrop_all,
        process_sublayers_layers img rdo true cs slots atts,
        process_sublayers_layers img rdo false cs slots atts]

/-- `process_layer_layer` for a forest. -/
theorem process_sublayers_layers (img : Image) (rdo ac : Bool) (ls : List Layer)
    (slots : List SlotRecord) (atts : Attachments) :
    (process_sublayers img rdo ac ls slots atts).layers
      = if ac then autocrop_all_list ls else ls := by
  cases ls with
  | nil => simp [process_sublayers, autocrop_all_list]
  | cons l ls =>
    cases ac <;>
      simp [process_sublayers, autocrop_all_list,
        process_layer_layer img rdo true l,
        process_layer_layer img rdo false l,
        process_sublayers_layers img rdo true ls,
        process_sublayers_layers img rdo false ls]
end

/-! ### Lemmas about the top-level loop and the dict -/

mutual
/-- Keys of a subtree's attachment entries are its leaf names. -/
theorem leaf_atts_keys (img : Image) (ac : Bool) (l : Layer) :
    (l.leaf_atts img ac).map (fun e => e.1) = l.leaf_names := by
  cases l with
  | leaf n v g c => simp [Layer.leaf_atts, Layer.leaf_names]
  | group n v cs =>
    simp [Layer.leaf_atts, Layer.leaf_names, leaf_atts_list_keys img ac cs]

/-- `leaf_atts_keys` for a forest. -/
theorem leaf_atts_list_keys (img : Image) (ac : Bool) (ls : List Layer) :
    (leaf_atts_list img ac ls).map (fun e => e.1) = leaf_names_list ls := by
  cases ls with
  | nil => simp [leaf_atts_list, leaf_names_list]
  | cons l ls =>
    simp [leaf_atts_list, leaf_names_list, leaf_atts_keys img ac l,
      leaf_atts_list_keys img ac ls]
end

mutual
/-- A subtree has as many leaf names as leaves. -/
theorem leaf_names_length (l : Layer) : l.leaf_names.length = l.leaf_count := by
  cases l with
  | leaf n v g c => simp [Layer.leaf_names, Layer.leaf_count]
  | group n v cs => simp [Layer.leaf_names, Layer.leaf_count, leaf_names_list_length cs]

/-- `leaf_names_length` for a forest. -/
theorem leaf_names_list_length (ls : List Layer) :
    (leaf_names_list ls).length = leaf_count_list ls := by
  cases ls with
  | nil => simp [leaf_names_list, leaf_count_list]
  | cons l ls =>
    simp [leaf_names_list, leaf_count_list, leaf_names_length l,
      leaf_names_list_length ls]
end

/-- With the visible-only filter off, the export's leaf names are all the
leaf names of the forest. -/
theorem export_leaf_names_false (ls : List Layer) :
    export_leaf_names false ls = leaf_names_list ls := by
  induction ls with
  | nil => simp [export_leaf_names, leaf_names_list]
  | cons l ls ih => simp [export_leaf_names, leaf_names_list, ih]

/-- Keys of the export's attachment entries are the exported leaf names. -/
theorem export_atts_keys (img : Image) (evo ac : Bool) (ls : List Layer) :
    (export_atts img evo ac ls).map (fun e => e.1) = export_leaf_names evo ls := by
  induction ls with
  | nil => simp [export_atts, export_leaf_names]
  | cons l ls ih =>
    cases hv : l.visible || !evo <;>
      simp [export_atts, export_leaf_names, hv, ih, leaf_atts_keys img ac l]

/-- With `reverse_draw_order` set, the top-level loop appends the
exported leaf slots in traversal order. -/
theorem export_loop_slots_true (img : Image) (evo ac : Bool) (ls : List Layer) :
    ∀ slots atts files, (export_loop img evo true ac ls slots atts files).slots
      = slots ++ (export_leaf_names evo ls).map mk_slot := by
  induction ls with
  | nil => intro slots atts files; simp [export_loop, export_leaf_names]
  | cons l ls ih =>
    intro slots atts files
    cases hv : l.visible || !evo <;>
      simp [export_loop, export_leaf_names, hv, ih,
        process_layer_slots_true img ac l]

/-- With `reverse_draw_order` unset, the top-level loop prepends the
exported leaf slots, reversing traversal order. -/
theorem export_loop_slots_false (img : Image) (evo ac : Bool) (ls : List Layer) :
    ∀ slots atts files, (export_loop img evo false ac ls slots atts files).slots
      = ((export_leaf_names evo ls).map mk_slot).reverse ++ slots := by
  induction ls with
  | nil => intro slots atts files; simp [export_loop, export_leaf_names]
  | cons l ls ih =>
    intro slots atts files
    cases hv : l.visible || !evo <;>
      simp [export_loop, export_leaf_names, hv, ih,
        process_layer_slots_false img ac l]

/-- The top-level loop folds the export's attachment entries into the
`skins.default` dict in traversal order. -/
theorem export_loop_atts (img : Image) (evo rdo ac : Bool) (ls : List Layer) :
    ∀ slots atts files, (export_loop img evo rdo ac ls slots atts files).attachments
      = (export_atts img evo ac ls).foldl (fun m e => dict_set m e.1 e.2) atts := by
  induction ls with
  | nil => intro slots atts files; simp [export_loop, export_atts]
  | cons l ls ih =>
    intro slots atts files
    cases hv : l.visible || !evo <;>
      simp [export_loop, export_atts, hv, ih, List.foldl_append,
        process_layer_atts img rdo ac l]

/-- The top-level loop writes one `<name>.png` per exported leaf, in
traversal order. -/
theorem export_loop_files (img : Image) (evo rdo ac : Bool) (ls : List Layer) :
    ∀ slots atts files, (export_loop img evo rdo ac ls slots atts files).files
      = files ++ (export_leaf_names evo ls).map (fun n => n ++ ".png") := by
  induction ls with
  | nil => intro slots atts files; simp [export_loop, export_leaf_names]
  | cons l ls ih =>
    intro slots atts files
    cases hv : l.visible || !evo <;>
      simp [export_loop, export_leaf_names, hv, ih, save_layers,
        ← process_layer_processed_names img rdo ac l slots atts, List.map_map,
        Function.comp]

/-- Writing a fresh key appends the pair at the end of the dict. -/
theorem dict_set_fresh (k : String) (v : String × AttachmentRecord) :
    ∀ m : Attachments, k ∉ m.map (fun e => e.1) → dict_set m k v = m ++ [(k, v)] := by
  intro m
  induction m with
  | nil => intro h; rfl
  | cons e rest ih =>
    intro h
    obtain ⟨k', v'⟩ := e
    simp only [List.map_cons, List.mem_cons, not_or] at h
    have h1 : ¬ k' = k := fun hh => h.1 hh.symm
    simp [dict_set, h1, ih h.2]

/-- Folding entries whose keys are fresh and pairwise distinct into a
dict appends them in order. -/
theorem foldl_dict_set_fresh :
    ∀ (entries : Attachments) (m : Attachments),
      (m.map (fun e => e.1) ++ entries.map (fun e => e.1)).Nodup →
      entries.foldl (fun m e => dict_set m e.1 e.2) m = m ++ entries := by
  intro entries
  induction entries with
  | nil => intro m h; simp
  | cons e rest ih =>
    intro m h
    have h1 : e.1 ∉ m.map (fun e => e.1) := by
      intro hmem
      exact (List.nodup_append.mp h).2.2 hmem (by simp)
    have h2 : ((m ++ [e]).map (fun e => e.1) ++ rest.map (fun e => e.1)).Nodup := by
      simpa [List.append_assoc] using h
    simp [dict_set_fresh e.1 e.2 m h1, ih (m ++ [e]) h2]

/-- `spine_export` in terms of the top-level loop: bones and animations
come straight from the initial object, slots and `skins.default` from the
loop, and no other skin is ever created. -/
theorem spine_export_eq (img : Image) (evo rdo ac : Bool) :
    spine_export img evo rdo ac =
      ⟨⟨[⟨"root"⟩],
        (export_loop img evo rdo ac img.layers [] [] []).slots,
        [("default", (export_loop img evo rdo ac img.layers [] [] []).attachments)],
        []⟩,
       (export_loop img evo rdo ac img.layers [] [] []).files⟩ := by
  simp [spine_export, List.lookup]

/-- Reading back the `default` skin of a one-skin manifest. -/
theorem skin_default_eq (b : List BoneRecord) (s : List SlotRecord)
    (a : Attachments) (an : List String) :
    skin_default ⟨b, s, [("default", a)], an⟩ = a := by
  simp [skin_default, List.lookup]

/-- With the visible-only filter on, the top-level loop skips every layer
whose visibility flag is false. -/
theorem export_loop_all_invisible (img : Image) (rdo ac : Bool) :
    ∀ ls : List Layer, (∀ l ∈ ls, l.visible = false) →
      ∀ slots atts files, export_loop img true rdo ac ls slots atts files
        = ⟨slots, atts, files⟩ := by
  intro ls
  induction ls with
  | nil => intro _ slots atts files; rfl
  | cons l ls ih =>
    intro h slots atts files
    have hl : l.visible = false := h l (by simp)
    simp [export_loop, hl, ih (fun x hx => h x (by simp [hx]))]

/-! ### Concrete images used by counterexamples and witnesses -/

/-- A 10x10 canvas whose only top-level layer is a visible group holding
a single invisible leaf `a`. -/
def img_nested_invisible : Image :=
  ⟨10, 10, [Layer.group "g" true [Layer.leaf "a" false ⟨0, 0, 2, 2⟩ ⟨0, 0, 2, 2⟩]]⟩

/-- A 10x10 canvas with two top-level visible leaves both named `head`,
at different positions. -/
def img_dup : Image :=
  ⟨10, 10, [Layer.leaf "head" true ⟨0, 0, 2, 2⟩ ⟨0, 0, 2, 2⟩,
            Layer.leaf "head" true ⟨4, 6, 2, 2⟩ ⟨4, 6, 2, 2⟩]⟩

/-- A 4x4 canvas with a visible top-level leaf `A` and a visible group
holding a visible leaf `B`. -/
def img_two : Image :=
  ⟨4, 4, [Layer.leaf "A" true ⟨0, 0, 1, 1⟩ ⟨0, 0, 1, 1⟩,
          Layer.group "G" true [Layer.leaf "B" true ⟨1, 1, 2, 2⟩ ⟨1, 1, 2, 2⟩]]⟩

/-- A 3x3 canvas whose only top-level layer is an invisible leaf `z`. -/
def img_all_invisible : Image :=
  ⟨3, 3, [Layer.leaf "z" false ⟨0, 0, 1, 1⟩ ⟨0, 0, 1, 1⟩]⟩

/-! ### The claims -/

/-- C1: for every leaf processed by the flattener with native offset
(ox, oy), size (w, h) and canvas (W, H), the emitted attachment is
written under the layer's name with targetX = ox + floor(w/2) - floor(W/2)
and targetY = H - (oy + floor(h/2)), and the record carries no rotation or
scale beyond the constant rotation 0. -/
theorem C1_attachment_coords (img : Image) (n : String) (v : Bool) (g c : Geom)
    (slots : List SlotRecord) (atts : Attachments) (rdo : Bool) :
    (process_layer img rdo false (Layer.leaf n v g c) slots atts).attachments
      = dict_set atts n (n,
          ⟨g.ox + ((g.w / 2 : Nat) : Int) - ((img.width / 2 : Nat) : Int),
           (img.height : Int) - (g.oy + ((g.h / 2 : Nat) : Int)),
           0, g.w, g.h⟩) := rfl

/-- C2 is false on the code: with the visible-only filter on, the leaf
`a` of `img_nested_invisible` has its visibility flag false yet is still
exported (its slot is emitted), because `process_layer` recurses into the
sublayers of a group without any visibility check — the flag is only
tested for top-level layers in `spine_export`. -/
theorem C2_counterexample :
    Layer.visible (Layer.leaf "a" false ⟨0, 0, 2, 2⟩ ⟨0, 0, 2, 2⟩) = false
    ∧ (spine_export img_nested_invisible true false false).output.slots
        = [⟨"a", "root", "a"⟩] := by
  constructor <;> rfl

/-- C2 (amended): the visibility flag is checked only for top-level
layers: a top-level leaf or group whose flag is false is skipped together
with its entire subtree, but below the top level no visibility test is
made — the slots and attachments produced for a group's sublayers do not
depend on a sublayer's visibility flag. -/
theorem C2_amended_top_level_only (img : Image) (rdo ac : Bool) (nm gn : String)
    (g c : Geom) (cs ls rest : List Layer) (gv v v' : Bool)
    (slots : List SlotRecord) (atts : Attachments) (files : List String) :
    (export_loop img true rdo ac (Layer.leaf nm false g c :: ls) slots atts files
      = export_loop img true rdo ac ls slots atts files)
    ∧ (export_loop img true rdo ac (Layer.group gn false cs :: ls) slots atts files
      = export_loop img true rdo ac ls slots atts files)
    ∧ ((process_layer img rdo ac (Layer.group gn gv (Layer.leaf nm v g c :: rest))
          slots atts).slots
      = (process_layer img rdo ac (Layer.group gn gv (Layer.leaf nm v' g c :: rest))
          slots atts).slots)
    ∧ ((process_layer img rdo ac (Layer.group gn gv (Layer.leaf nm v g c :: rest))
          slots atts).attachments
      = (process_layer img rdo ac (Layer.group gn gv (Layer.leaf nm v' g c :: rest))
          slots atts).attachments) := by
  refine ⟨?_, ?_, rfl, rfl⟩ <;> simp [export_loop, Layer.visible]

/-- C3 is false on the code: `img_nested_invisible` has N = 0 visible
leaves (its only leaf has visibility flag false, so no reading of
"visible" counts it) and M = 1 invisible leaf, yet flattening with
visibleOnly = true yields 1 SlotRecord and 1 AttachmentRecord, not 0,
because the filter is never applied below the top level. -/
theorem C3_counterexample :
    spec_visible_leaves_list img_nested_invisible.layers = 0
    ∧ leaf_count_list img_nested_invisible.layers = 1
    ∧ (spine_export img_nested_invisible true false false).output.slots.length = 1
    ∧ (skin_default (spine_export img_nested_invisible true false false).output).length
        = 1 := by
  refine ⟨rfl, rfl, rfl, rfl⟩

/-- C3 (amended): the export emits exactly one SlotRecord per leaf lying
under a top-level layer that passes the line-72 visibility filter (the
filter applies to top-level layers only), and — when the exported layer
names are pairwise distinct — exactly as many AttachmentRecords; with
visibleOnly = false every leaf is exported, so N + M of each. -/
theorem C3_amended_counts (img : Image) (evo rdo ac : Bool)
    (h : (export_leaf_names evo img.layers).Nodup) :
    (spine_export img evo rdo ac).output.slots.length
        = (export_leaf_names evo img.layers).length
    ∧ (skin_default (spine_export img evo rdo ac).output).length
        = (export_leaf_names evo img.layers).length
    ∧ (export_leaf_names false img.layers).length = leaf_count_list img.layers := by
  refine ⟨?_, ?_, ?_⟩
  · rw [spine_export_eq]
    cases rdo
    · simp [export_loop_slots_false img evo ac img.layers]
    · simp [export_loop_slots_true img evo ac img.layers]
  · rw [spine_export_eq, skin_default_eq,
      export_loop_atts img evo rdo ac img.layers,
      foldl_dict_set_fresh (export_atts img evo ac img.layers) [] (by
        simpa [export_atts_keys img evo ac img.layers] using h)]
    simpa using congrArg List.length (export_atts_keys img evo ac img.layers)
  · rw [export_leaf_names_false, leaf_names_list_length]

/-- Witness for C3 (amended) at `img_nested_invisible` with
visibleOnly = true. -/
theorem C3_amended_counts_witness :
    (export_leaf_names true img_nested_invisible.layers).Nodup
    ∧ ((spine_export img_nested_invisible true false false).output.slots.length
          = (export_leaf_names true img_nested_invisible.layers).length
        ∧ (skin_default (spine_export img_nested_invisible true false false).output).length
          = (export_leaf_names true img_nested_invisible.layers).length
        ∧ (export_leaf_names false img_nested_invisible.layers).length
          = leaf_count_list img_nested_invisible.layers) :=
  ⟨by decide, C3_amended_counts img_nested_invisible true false false (by decide)⟩

/-- C4: the final slots sequence is the reverse of traversal order when
reverseOrder is false (each SlotRecord is inserted at the front) and
equals traversal order when reverseOrder is true (each SlotRecord is
appended at the end). -/
theorem C4_slot_order (img : Image) (evo ac : Bool) :
    (spine_export img evo true ac).output.slots
        = (export_leaf_names evo img.layers).map mk_slot
    ∧ (spine_export img evo false ac).output.slots
        = ((export_leaf_names evo img.layers).map mk_slot).reverse := by
  constructor
  · rw [spine_export_eq]; simp [export_loop_slots_true img evo ac img.layers]
  · rw [spine_export_eq]; simp [export_loop_slots_false img evo ac img.layers]

/-- Reading a slot record's name back gives the leaf name it was built
from. -/
theorem name_mk_slot : SlotRecord.name ∘ mk_slot = id := rfl

/-- C5 is partly false on the code: exporting `img_dup` (two leaves named
`head`) overwrites the earlier attachment (only the second leaf's record,
x = 0, y = 3, survives under `skins.default`) and the earlier file
(`head.png` is written twice), but the slots sequence is NOT overwritten:
both SlotRecords named `head` remain in it. -/
theorem C5_counterexample :
    (spine_export img_dup true false false).output.slots
        = [⟨"head", "root", "head"⟩, ⟨"head", "root", "head"⟩]
    ∧ skin_default (spine_export img_dup true false false).output
        = [("head", "head", ⟨0, 3, 0, 2, 2⟩)]
    ∧ (spine_export img_dup true false false).files = ["head.png", "head.png"] := by
  refine ⟨rfl, rfl, rfl⟩

/-- C5 (amended): when layer names within one export are pairwise
distinct, every exported leaf appears exactly once in the slots sequence
and exactly once in `skins.default`, under the same name used for its
image file `<name>.png`; there is no de-duplication logic, and when two
exported leaves share a name the collision silently overwrites the
earlier attachment and file, while the slots sequence keeps one record
per exported leaf (the earlier slot record is not removed). -/
theorem C5_amended_unique_names (img : Image) (evo rdo ac : Bool)
    (h : (export_leaf_names evo img.layers).Nodup) :
    ((skin_default (spine_export img evo rdo ac).output).map (fun e => e.1)
        = export_leaf_names evo img.layers)
    ∧ (∀ n ∈ export_leaf_names evo img.layers,
        ((spine_export img evo rdo ac).output.slots.map SlotRecord.name).count n = 1
        ∧ ((skin_default (spine_export img evo rdo ac).output).map
            (fun e => e.1)).count n = 1)
    ∧ (spine_export img evo rdo ac).files
        = (export_leaf_names evo img.layers).map (fun n => n ++ ".png") := by
  have hkeys : (skin_default (spine_export img evo rdo ac).output).map (fun e => e.1)
      = export_leaf_names evo img.layers := by
    rw [spine_export_eq, skin_default_eq, export_loop_atts img evo rdo ac img.layers,
      foldl_dict_set_fresh (export_atts img evo ac img.layers) [] (by
        simpa [export_atts_keys img evo ac img.layers] using h)]
    simpa using export_atts_keys img evo ac img.layers
  have hslots : (spine_export img evo rdo ac).output.slots.map SlotRecord.name
      = if rdo then export_leaf_names evo img.layers
        else (export_leaf_names evo img.layers).reverse := by
    cases rdo
    · rw [spine_export_eq]
      simp [export_loop_slots_false img evo ac img.layers, List.map_map,
        name_mk_slot]
    · rw [spine_export_eq]
      simp [export_loop_slots_true img evo ac img.layers, List.map_map,
        name_mk_slot]
  refine ⟨hkeys, fun n hn => ⟨?_, ?_⟩, ?_⟩
  · rw [hslots]
    cases rdo <;>
      simp [List.count_reverse, List.count_eq_one_of_mem h hn]
  · rw [hkeys]
    exact List.count_eq_one_of_mem h hn
  · rw [spine_export_eq]
    simp [export_loop_files img evo rdo ac img.layers]

/-- Witness for C5 (amended) at `img_two` (distinct names `A`, `B`). -/
theorem C5_amended_unique_names_witness :
    (export_leaf_names true img_two.layers).Nodup
    ∧ (((skin_default (spine_export img_two true false false).output).map (fun e => e.1)
          = export_leaf_names true img_two.layers)
        ∧ (∀ n ∈ export_leaf_names true img_two.layers,
            ((spine_export img_two true false false).output.slots.map
              SlotRecord.name).count n = 1
            ∧ ((skin_default (spine_export img_two true false false).output).map
                (fun e => e.1)).count n = 1)
        ∧ (spine_export img_two true false false).files
            = (export_leaf_names true img_two.layers).map (fun n => n ++ ".png")) :=
  ⟨by decide, C5_amended_unique_names img_two true false false (by decide)⟩

/-- C6: with the autocrop option enabled, the in-place autocrop operation
is applied to a leaf before its offset, width and height are read: the
leaf left in the image carries the post-autocrop geometry, and the
emitted attachment coordinates and width/height are computed from the
post-autocrop offset and size, not the pre-autocrop values. -/
theorem C6_autocrop_before_read (img : Image) (n : String) (v : Bool) (g c : Geom)
    (slots : List SlotRecord) (atts : Attachments) (rdo : Bool) :
    (process_layer img rdo true (Layer.leaf n v g c) slots atts).layer
        = Layer.leaf n v c c
    ∧ (process_layer img rdo true (Layer.leaf n v g c) slots atts).attachments
        = dict_set atts n (n,
            ⟨c.ox + ((c.w / 2 : Nat) : Int) - ((img.width / 2 : Nat) : Int),
             (img.height : Int) - (c.oy + ((c.h / 2 : Nat) : Int)),
             0, c.w, c.h⟩)
    ∧ (process_layer img rdo true (Layer.leaf n v g c) slots atts).processed
        = [Layer.leaf n v c c] :=
  ⟨rfl, rfl, rfl⟩

/-- C7: the coordinate transform is a pure function on integers; the
emitted attachment stores exactly its two integer results together with
rotation 0 and the integer width and height, and the halving truncates
(floor of a non-negative halving; width 5 gives half 2). -/
theorem C7_integer_arithmetic (img : Image) (n : String) (v : Bool) (g c : Geom)
    (slots : List SlotRecord) (atts : Attachments) (rdo : Bool) :
    transform g img
        = (g.ox + ((g.w / 2 : Nat) : Int) - ((img.width / 2 : Nat) : Int),
           (img.height : Int) - (g.oy + ((g.h / 2 : Nat) : Int)))
    ∧ (process_layer img rdo false (Layer.leaf n v g c) slots atts).attachments
        = dict_set atts n (n, ⟨(transform g img).1, (transform g img).2, 0, g.w, g.h⟩)
    ∧ 2 * (g.w / 2) ≤ g.w ∧ g.w < 2 * (g.w / 2) + 2
    ∧ (5 : Nat) / 2 = 2 := by
  refine ⟨rfl, rfl, ?_, ?_, rfl⟩ <;> omega

/-- C8: flattening is deterministic and free of hidden input mutation:
the tree returned by `process_layer` is the input tree itself when
autocrop is off, and exactly the autocrop of the input tree when it is
on; consequently re-running the flattener (autocrop off) on the tree the
first run left behind reproduces the first run's result exactly. -/
theorem C8_determinism_no_mutation (img : Image) (rdo ac : Bool) (l : Layer)
    (slots : List SlotRecord) (atts : Attachments) :
    (process_layer img rdo ac l slots atts).layer
        = (if ac then l.autocrop_all else l)
    ∧ process_layer img rdo false ((process_layer img rdo false l slots atts).layer)
        slots atts
      = process_layer img rdo false l slots atts := by
  refine ⟨process_layer_layer img rdo ac l slots atts, ?_⟩
  rw [process_layer_layer img rdo false l slots atts]
  simp

/-- C9: processing only ever touches the slots sequence and the
`skins.default` mapping: after the export, bones is still
`[{'name': 'root'}]`, animations is still empty, and `skins` holds
exactly the single key `default`, as initialized at export start. -/
theorem C9_manifest_frame (img : Image) (evo rdo ac : Bool) :
    (spine_export img evo rdo ac).output.bones = [⟨"root"⟩]
    ∧ (spine_export img evo rdo ac).output.animations = []
    ∧ ((spine_export img evo rdo ac).output.skins).map (fun e => e.1)
        = ["default"] := by
  rw [spine_export_eq]
  exact ⟨rfl, rfl, rfl⟩

/-- C10: for an empty layer tree, and for a tree whose top-level layers
all fail the visibility filter, the export still produces the manifest —
with empty slots and an empty default skin — and writes no layer files;
no error path exists in the model (the export is a total function). -/
theorem C10_empty_output_no_error (img : Image) (evo rdo ac : Bool)
    (h : img.layers = [] ∨ (evo = true ∧ ∀ l ∈ img.layers, l.visible = false)) :
    (spine_export img evo rdo ac).output = ⟨[⟨"root"⟩], [], [("default", [])], []⟩
    ∧ (spine_export img evo rdo ac).files = [] := by
  rcases h with h | ⟨hevo, hinv⟩
  · have he : export_loop img evo rdo ac img.layers [] [] [] = ⟨[], [], []⟩ := by
      rw [h]
      rfl
    rw [spine_export_eq, he]
    exact ⟨rfl, rfl⟩
  · subst hevo
    rw [spine_export_eq, export_loop_all_invisible img rdo ac img.layers hinv]
    exact ⟨rfl, rfl⟩

/-- Witness for C10 at `img_all_invisible` with the filter on. -/
theorem C10_empty_output_no_error_witness :
    (img_all_invisible.layers = []
      ∨ (true = true ∧ ∀ l ∈ img_all_invisible.layers, l.visible = false))
    ∧ ((spine_export img_all_invisible true false false).output
          = ⟨[⟨"root"⟩], [], [("default", [])], []⟩
        ∧ (spine_export img_all_invisible true false false).files = []) :=
  ⟨Or.inr ⟨rfl, by decide⟩,
   C10_empty_output_no_error img_all_invisible true false false (Or.inr ⟨rfl, by decide⟩)⟩
